/-
Verification of the reminders synchronization and reconciliation engine
(custom_components/reminders_cli): a shallow embedding of the coordinator
(`__init__.py`), the API client path construction (`api.py` / `const.py`)
and the todo platform reconciliation (`todo.py`), with theorems settling
the specification claims about them.

Python dictionaries holding reminder and list records are embedded as
structures over an explicit dynamic-value type `PyVal`; snapshot maps are
embedded as functions `String → Option _` (Python dict lookup/assignment);
network calls are embedded as explicit call-trace values, with fetch
results passed in as `Except` oracles.
-/
import Mathlib

set_option linter.unusedVariables false
set_option linter.unnecessarySimpa false
set_option linter.unreachableTactic false
set_option linter.unusedTactic false

/-- Dynamic Python value as stored in the JSON-decoded reminder and list
records: a string, an integer, or a boolean. -/
inductive PyVal where
  | vStr (s : String)
  | vInt (n : Int)
  | vBool (b : Bool)
deriving DecidableEq, Repr

/-- Python truthiness of an optional dynamic value (`None` and the empty
string, zero and `False` are falsy). -/
def val_truthy : Option PyVal → Bool
  | none => false
  | some (.vStr s) => !(s == "")
  | some (.vInt n) => !(n == 0)
  | some (.vBool b) => b

/-- Python `==` between dynamic values: same-type comparison by value,
with the numeric cross-type rule `True == 1`, `False == 0`; strings never
equal numbers or booleans. -/
def pyValEq : PyVal → PyVal → Bool
  | .vStr a, .vStr b => a == b
  | .vInt a, .vInt b => a == b
  | .vBool a, .vBool b => a == b
  | .vBool a, .vInt b => (if a then (1 : Int) else 0) == b
  | .vInt a, .vBool b => a == (if b then (1 : Int) else 0)
  | _, _ => false

/-- Python `==` between optional dynamic values (`None == None` is true,
`None` never equals a present value). -/
def pyEqOV : Option PyVal → Option PyVal → Bool
  | none, none => true
  | some a, some b => pyValEq a b
  | _, _ => false

/-- Python `a or b` on optional dynamic values: `a` when truthy, else `b`. -/
def py_or (a b : Option PyVal) : Option PyVal :=
  if val_truthy a then a else b

/-- Python `a or b` on optional strings (empty string is falsy). -/
def py_or_str (a b : Option String) : Option String :=
  if (match a with | some s => !(s == "") | none => false) then a else b

/-- Days from 1970-01-01 for a civil date (standard civil-from-days
inverse, as used by CPython's date ordinal arithmetic). -/
def daysFromCivil (y m d : Int) : Int :=
  let yy := if m ≤ 2 then y - 1 else y
  let era := (if 0 ≤ yy then yy else yy - 399) / 400
  let yoe := yy - era * 400
  let mp := (m + 9) % 12
  let doy := (153 * mp + 2) / 5 + d - 1
  let doe := yoe * 365 + yoe / 4 - yoe / 100 + doy
  era * 146097 + doe - 719468

/-- Model of a Python `datetime.datetime` value: calendar components,
microseconds, and an optional fixed UTC offset in minutes (`none` models a
naive datetime without `tzinfo`). -/
structure PyDatetime where
  year : Nat
  month : Nat
  day : Nat
  hour : Nat
  minute : Nat
  second : Nat
  microsecond : Nat
  offsetMinutes : Option Int
deriving DecidableEq, Repr

/-- Microseconds since the epoch of an aware datetime (offset subtracted). -/
def PyDatetime.toUtcMicros (d : PyDatetime) : Int :=
  daysFromCivil (d.year : Int) (d.month : Int) (d.day : Int) * 86400000000
    + (d.hour : Int) * 3600000000 + (d.minute : Int) * 60000000
    + (d.second : Int) * 1000000 + (d.microsecond : Int)
    - d.offsetMinutes.getD 0 * 60000000

/-- Python `==` between datetimes: two aware datetimes are equal iff they
denote the same instant; two naive datetimes are equal componentwise; an
aware and a naive datetime are never equal. -/
def pyDtEq (a b : PyDatetime) : Bool :=
  match a.offsetMinutes, b.offsetMinutes with
  | some _, some _ => a.toUtcMicros == b.toUtcMicros
  | none, none => a == b
  | _, _ => false

/-- Python `==` between optional datetimes. -/
def pyDtOptEq : Option PyDatetime → Option PyDatetime → Bool
  | none, none => true
  | some a, some b => pyDtEq a b
  | _, _ => false

/-- A reminder record as decoded from the remote API, restricted to the
keys the integration reads (`reminder.get(...)` on anything else never
occurs); a `none` field models an absent key. -/
structure Reminder where
  externalId : Option PyVal := none
  uuid : Option PyVal := none
  id : Option PyVal := none
  title : Option PyVal := none
  notes : Option PyVal := none
  dueDate : Option PyVal := none
  isCompleted : Option PyVal := none
deriving DecidableEq, Repr

/-- A list record as decoded from `get_lists`, restricted to the keys the
coordinator reads; identifier and title fields are modelled as optional
strings. -/
structure ListInfo where
  uuid : Option String := none
  id : Option String := none
  title : Option String := none
deriving DecidableEq, Repr

/-- Host to-do item completion status. -/
inductive TodoItemStatus where
  | needsAction
  | completed
deriving DecidableEq, Repr

/-- Host `TodoItem`: the desired state forwarded from the host
entity model and the rendered item shape. Summary and description are
dynamic values because the rendering path passes stored record values
through unchanged. -/
structure TodoItem where
  uid : Option String := none
  summary : Option PyVal := none
  status : Option TodoItemStatus := none
  due : Option PyDatetime := none
  description : Option PyVal := none
deriving DecidableEq, Repr

/-- Coordinator snapshot state: `self.lists_meta` and `self.lists_data`,
Python dicts embedded as partial maps from list identifier. -/
structure CoordState where
  lists_meta : String → Option ListInfo
  lists_data : String → Option (List Reminder)

/-- The empty snapshot (coordinator construction). -/
def CoordState.empty : CoordState :=
  { lists_meta := fun _ => none, lists_data := fun _ => none }

/-- Fuel-indexed scanner for Python `str.replace(old, new)`: scan left to
right; at each position, if `pat` matches, emit `rep` and skip past the
match (non-overlapping, replacement not rescanned), else keep the
character. Fuel at least the length of the input makes the fuel cases
unreachable. -/
def replaceFuel (pat rep : List Char) : Nat → List Char → List Char
  | _, [] => []
  | 0, s => s
  | fuel + 1, c :: rest =>
    if pat.isPrefixOf (c :: rest) then
      rep ++ replaceFuel pat rep fuel ((c :: rest).drop pat.length)
    else
      c :: replaceFuel pat rep fuel rest

/-- Python `str.replace` on character lists; the empty-pattern corner
(never exercised by this code base, which replaces a scheme marker and the
letter Z) is left as the identity. -/
def pyReplaceL (pat rep s : List Char) : List Char :=
  if pat.isEmpty then s else replaceFuel pat rep s.length s

/-- Python `s.replace(pat, rep)` on strings. -/
def pyReplace (s pat rep : String) : String :=
  ⟨pyReplaceL pat.data rep.data s.data⟩

/-- Whether `pat` occurs as a contiguous run anywhere in the list. -/
def occursIn (pat : List Char) : List Char → Bool
  | [] => pat.isEmpty
  | c :: rest => pat.isPrefixOf (c :: rest) || occursIn pat rest

/-- Whether `pat` occurs as a substring of `s`. -/
def occurs_str (pat s : String) : Bool :=
  occursIn pat.data s.data

/-- Python `s.startswith(p)`. -/
def py_startswith (s p : String) : Bool :=
  p.data.isPrefixOf s.data

/-- Value of a decimal digit character, `none` for a non-digit. -/
def digitVal (c : Char) : Option Nat :=
  if c.isDigit then some (c.toNat - 48) else none

/-- Parse exactly two leading digits. -/
def parse2 : List Char → Option (Nat × List Char)
  | a :: b :: rest => do
    let x ← digitVal a
    let y ← digitVal b
    pure (x * 10 + y, rest)
  | _ => none

/-- Parse exactly three leading digits. -/
def parse3 : List Char → Option (Nat × List Char)
  | a :: b :: c :: rest => do
    let x ← digitVal a
    let y ← digitVal b
    let z ← digitVal c
    pure (x * 100 + y * 10 + z, rest)
  | _ => none

/-- Parse exactly four leading digits. -/
def parse4 : List Char → Option (Nat × List Char)
  | a :: b :: c :: d :: rest => do
    let x ← digitVal a
    let y ← digitVal b
    let z ← digitVal c
    let w ← digitVal d
    pure (x * 1000 + y * 100 + z * 10 + w, rest)
  | _ => none

/-- Parse exactly six leading digits. -/
def parse6 (cs : List Char) : Option (Nat × List Char) := do
  let (a, cs1) ← parse3 cs
  let (b, cs2) ← parse3 cs1
  pure (a * 1000 + b, cs2)

/-- Gregorian leap-year rule. -/
def isLeap (y : Nat) : Bool :=
  (y % 4 == 0 && y % 100 != 0) || y % 400 == 0

/-- Number of days in a month. -/
def daysInMonth (y m : Nat) : Nat :=
  if m = 2 then (if isLeap y then 29 else 28)
  else if m = 4 ∨ m = 6 ∨ m = 9 ∨ m = 11 then 30
  else 31

/-- Parse the `YYYY-MM-DD` date portion with calendar range checks. -/
def parseDate (cs : List Char) : Option (Nat × Nat × Nat × List Char) := do
  let (y, cs1) ← parse4 cs
  match cs1 with
  | '-' :: cs2 => do
    let (m, cs3) ← parse2 cs2
    match cs3 with
    | '-' :: cs4 => do
      let (d, cs5) ← parse2 cs4
      if 1 ≤ y ∧ 1 ≤ m ∧ m ≤ 12 ∧ 1 ≤ d ∧ d ≤ daysInMonth y m then
        pure (y, m, d, cs5)
      else none
    | _ => none
  | _ => none

/-- Parse the time portion `HH[:MM[:SS[.fff or .ffffff]]]` into
hour, minute, second and microseconds (range checks applied by the
caller). -/
def parseTimeCore (cs : List Char) : Option (Nat × Nat × Nat × Nat × List Char) := do
  let (h, cs1) ← parse2 cs
  match cs1 with
  | ':' :: cs2 => do
    let (mi, cs3) ← parse2 cs2
    match cs3 with
    | ':' :: cs4 => do
      let (se, cs5) ← parse2 cs4
      match cs5 with
      | '.' :: cs6 =>
        match parse6 cs6 with
        | some (us, cs7) => pure (h, mi, se, us, cs7)
        | none => do
          let (ms, cs7) ← parse3 cs6
          pure (h, mi, se, ms * 1000, cs7)
      | _ => pure (h, mi, se, 0, cs5)
    | _ => pure (h, mi, 0, 0, cs3)
  | _ => pure (h, 0, 0, 0, cs1)

/-- Parse a UTC-offset amount `HH:MM` into minutes, requiring the offset
to stay strictly below 24 hours (second-precision offsets are not
modelled). -/
def parseOffAmount (cs : List Char) : Option Int := do
  let (oh, cs1) ← parse2 cs
  match cs1 with
  | ':' :: cs2 => do
    let (om, cs3) ← parse2 cs2
    match cs3 with
    | [] => if om ≤ 59 ∧ oh * 60 + om < 1440 then pure ((oh : Int) * 60 + om) else none
    | _ => none
  | _ => none

/-- Parse the optional trailing UTC offset: nothing (naive), or a signed
`HH:MM` amount. -/
def parseOffset : List Char → Option (Option Int)
  | [] => some none
  | '+' :: cs => do
    let m ← parseOffAmount cs
    pure (some m)
  | '-' :: cs => do
    let m ← parseOffAmount cs
    pure (some (-m))
  | _ => none

/-- Model of Python `datetime.fromisoformat` (stdlib, not in this
repository) in its 3.10 grammar, the behaviour the replace-based
Z-normalization in `todo.py` is written against:
`YYYY-MM-DD[*HH[:MM[:SS[.fff[fff]]]][+HH:MM or -HH:MM]]` with any single
separator character, returning `none` where Python raises `ValueError`. -/
def fromisoformat (s : String) : Option PyDatetime := do
  let (y, m, d, rest) ← parseDate s.data
  match rest with
  | [] =>
    pure { year := y, month := m, day := d, hour := 0, minute := 0,
           second := 0, microsecond := 0, offsetMinutes := none }
  | _sep :: tcs => do
    let (h, mi, se, us, rest2) ← parseTimeCore tcs
    if h ≤ 23 ∧ mi ≤ 59 ∧ se ≤ 59 then do
      let off ← parseOffset rest2
      pure { year := y, month := m, day := d, hour := h, minute := mi,
             second := se, microsecond := us, offsetMinutes := off }
    else none

/-- Characters Python `urllib.parse.quote` never encodes (its
always-safe set: ASCII letters, digits, and underscore, dot, hyphen,
tilde); with `safe=""` everything else is percent-encoded. -/
def ALWAYS_SAFE (c : Char) : Bool :=
  c.isAlpha || c.isDigit || c = '_' || c = '.' || c = '-' || c = '~'

/-- UTF-8 encoding of one character as its list of byte values. -/
def utf8Bytes (c : Char) : List Nat :=
  let n := c.toNat
  if n < 128 then [n]
  else if n < 2048 then [192 + n / 64, 128 + n % 64]
  else if n < 65536 then [224 + n / 4096, 128 + (n / 64) % 64, 128 + n % 64]
  else [240 + n / 262144, 128 + (n / 4096) % 64, 128 + (n / 64) % 64, 128 + n % 64]

/-- Uppercase hexadecimal digit character for a value below sixteen. -/
def hexDigitChar (n : Nat) : Char :=
  (['0', '1', '2', '3', '4', '5', '6', '7', '8', '9',
    'A', 'B', 'C', 'D', 'E', 'F']).getD n '0'

/-- Percent-encoding of one character under `quote(..., safe="")`:
kept verbatim when always safe, otherwise each UTF-8 byte becomes a
percent escape. -/
def pctEncodeChar (c : Char) : List Char :=
  if ALWAYS_SAFE c then [c]
  else (utf8Bytes c).flatMap (fun b => ['%', hexDigitChar (b / 16), hexDigitChar (b % 16)])

/-- Model of Python `urllib.parse.quote(s, safe="")` (stdlib, not in this
repository), as used by `api.py` on list names. -/
def pyQuote (s : String) : String :=
  ⟨s.data.flatMap pctEncodeChar⟩

/-- Path built by `api.get_reminders` from `ENDPOINT_LIST_REMINDERS`
(`/lists/{list_name}` with the quoted list name substituted, plus the
completed query flag). -/
def get_reminders_endpoint (list_name : String) (include_completed : Bool) : String :=
  let endpoint := "/lists/" ++ pyQuote list_name
  if include_completed then endpoint ++ "?completed=true" else endpoint

/-- Path built by `api.create_reminder` from `ENDPOINT_CREATE_REMINDER`. -/
def create_reminder_endpoint (list_name : String) : String :=
  "/lists/" ++ pyQuote list_name ++ "/reminders"

/-- Path built by `api.update_reminder` from `ENDPOINT_UPDATE_REMINDER`:
the list name is quoted, the reminder identifier is substituted verbatim. -/
def update_reminder_endpoint (list_name reminder_id : String) : String :=
  "/lists/" ++ pyQuote list_name ++ "/reminders/" ++ reminder_id

/-- Path built by `api.delete_reminder` from `ENDPOINT_DELETE_REMINDER`. -/
def delete_reminder_endpoint (list_name reminder_id : String) : String :=
  "/lists/" ++ pyQuote list_name ++ "/reminders/" ++ reminder_id

/-- Path built by `api.complete_reminder` from `ENDPOINT_COMPLETE_REMINDER`. -/
def complete_reminder_endpoint (list_name reminder_id : String) : String :=
  "/lists/" ++ pyQuote list_name ++ "/reminders/" ++ reminder_id ++ "/complete"

/-- Path built by `api.uncomplete_reminder` from
`ENDPOINT_UNCOMPLETE_REMINDER`. -/
def uncomplete_reminder_endpoint (list_name reminder_id : String) : String :=
  "/lists/" ++ pyQuote list_name ++ "/reminders/" ++ reminder_id ++ "/uncomplete"

/-- Values placed in a JSON request body by `api.update_reminder`: the
dynamic values passed through, or a datetime serialized via `isoformat`
(serialization itself is not modelled, only which keys are present). -/
inductive BodyVal where
  | val (v : PyVal)
  | dt (d : PyDatetime)
deriving DecidableEq, Repr

/-- Request body built by `api.update_reminder`: each field is added
exactly when the corresponding argument `is not None`, in source order. -/
def update_reminder_body (title notes : Option PyVal) (due_date : Option PyDatetime)
    (priority : Option PyVal) : List (String × BodyVal) :=
  (match title with | some t => [("title", BodyVal.val t)] | none => [])
  ++ (match notes with | some n => [("notes", BodyVal.val n)] | none => [])
  ++ (match due_date with | some d => [("dueDate", BodyVal.dt d)] | none => [])
  ++ (match priority with | some p => [("priority", BodyVal.val p)] | none => [])

/-- Embedding of `todo.py _parse_due_date`: `None` and falsy values
return `None`; a non-empty string has every `Z` replaced by `+00:00` and
is handed to `fromisoformat`; parse failures and the `AttributeError` on
truthy non-string values are caught to `None`. -/
def parse_due_date (due_date : Option PyVal) : Option PyDatetime :=
  match due_date with
  | some (.vStr s) =>
    if s == "" then none
    else fromisoformat (pyReplace s "Z" "+00:00")
  | _ => none

/-- Reconciliation errors in the engine's taxonomy: the
`MissingIdentifierError` raised by identifier extraction and the
`NotFoundError` naming the item uid and the list display name (in the
source both surface as `HomeAssistantError` with distinct messages). -/
inductive UpdateError where
  | missingIdentifier
  | notFound (uid : Option String) (listName : String)
deriving DecidableEq, Repr

instance {α β : Type} [DecidableEq α] [DecidableEq β] : DecidableEq (Except α β) :=
  fun a b =>
    match a, b with
    | .ok x, .ok y =>
      if h : x = y then Decidable.isTrue (by rw [h])
      else Decidable.isFalse (fun hc => by injection hc; contradiction)
    | .error x, .error y =>
      if h : x = y then Decidable.isTrue (by rw [h])
      else Decidable.isFalse (fun hc => by injection hc; contradiction)
    | .ok _, .error _ => Decidable.isFalse (fun hc => by injection hc)
    | .error _, .ok _ => Decidable.isFalse (fun hc => by injection hc)

/-- The scheme marker that may be prefixed to reminder identifiers. -/
def APPLE_MARKER : String := "x-apple-reminder://"

/-- Embedding of `todo.py _extract_reminder_id`: a falsy uid (absent or
empty) raises; a uid starting with the scheme marker has every occurrence
of the marker removed via `str.replace`; any other uid is returned as is. -/
def extract_reminder_id (uid : Option String) : Except UpdateError String :=
  match uid with
  | none => Except.error .missingIdentifier
  | some u =>
    if u == "" then Except.error .missingIdentifier
    else if py_startswith u APPLE_MARKER then Except.ok (pyReplace u APPLE_MARKER "")
    else Except.ok u

/-- Embedding of `todo.py _reminder_uid`: Python `or`-chain over the
externalId, uuid and id fields (first truthy value, last value if all are
falsy), then an `isinstance(uid, str)` check. -/
def reminder_uid (r : Reminder) : Option String :=
  match py_or (py_or r.externalId r.uuid) r.id with
  | some (.vStr s) => some s
  | _ => none

/-- Modelled from the spec claim wording, for comparison with
`reminder_uid`: the first field among externalId, uuid, id that holds a
string value. -/
def first_string_field (r : Reminder) : Option String :=
  match r.externalId with
  | some (.vStr s) => some s
  | _ =>
    match r.uuid with
    | some (.vStr s) => some s
    | _ =>
      match r.id with
      | some (.vStr s) => some s
      | _ => none

/-- Embedding of `todo.py _display_name`: the metadata title if truthy,
else the list identifier. -/
def display_name (st : CoordState) (list_id : String) : String :=
  let title := match st.lists_meta list_id with
    | some info => info.title
    | none => none
  (py_or_str title (some list_id)).getD list_id

/-- Embedding of the `todo_items` property of the todo entity: render
each reminder of the list whose walrus-assigned uid is truthy, carrying
title (defaulted to the empty string), completion status by truthiness of
`isCompleted`, parsed due date and raw notes. -/
def todo_items (st : CoordState) (list_id : String) : List TodoItem :=
  let reminders := (st.lists_data list_id).getD []
  reminders.filterMap (fun r =>
    match reminder_uid r with
    | some uid =>
      if uid == "" then none
      else some
        { uid := some uid
          summary := some (r.title.getD (.vStr ""))
          status := some (if val_truthy (some (r.isCompleted.getD (.vBool false)))
                          then TodoItemStatus.completed else TodoItemStatus.needsAction)
          due := parse_due_date r.dueDate
          description := r.notes }
    | none => none)

/-- Desired completion flag: `item.status == TodoItemStatus.COMPLETED`. -/
def is_completed_flag (item : TodoItem) : Bool :=
  item.status == some TodoItemStatus.completed

/-- Stored completion value: `current_reminder.get("isCompleted", False)`. -/
def was_completed_val (r : Reminder) : PyVal :=
  r.isCompleted.getD (.vBool false)

/-- Completion delta `is_completed != was_completed` (Python inequality,
booleans compare numerically against stored integers). -/
def completion_changed (item : TodoItem) (r : Reminder) : Bool :=
  !(pyValEq (.vBool (is_completed_flag item)) (was_completed_val r))

/-- Title delta `item.summary != current_reminder.get("title")`. -/
def title_changed (item : TodoItem) (r : Reminder) : Bool :=
  !(pyEqOV item.summary r.title)

/-- Notes delta `item.description != current_reminder.get("notes")`. -/
def notes_changed (item : TodoItem) (r : Reminder) : Bool :=
  !(pyEqOV item.description r.notes)

/-- Due delta `item.due != current_due`, compared on parsed datetimes. -/
def due_changed (item : TodoItem) (r : Reminder) : Bool :=
  !(pyDtOptEq item.due (parse_due_date r.dueDate))

/-- Remote calls the reconciliation path can issue, in issue order;
`getReminders` is the per-list refresh fetch. -/
inductive ApiCall where
  | completeReminder (list_name reminder_id : String)
  | uncompleteReminder (list_name reminder_id : String)
  | updateReminder (list_name reminder_id : String)
      (title notes : Option PyVal) (due_date : Option PyDatetime)
  | getReminders (list_name : String) (include_completed : Bool)
deriving DecidableEq, Repr

/-- Whether a call is one of the dedicated completion endpoints. -/
def is_completion_call : ApiCall → Bool
  | .completeReminder _ _ => true
  | .uncompleteReminder _ _ => true
  | _ => false

/-- Whether a call is the general update endpoint. -/
def is_update_call : ApiCall → Bool
  | .updateReminder _ _ _ _ _ => true
  | _ => false

/-- Embedding of the `next(...)` scan over the stored reminders in
`async_update_todo_item`: extraction of each scanned reminder's uid can
raise, aborting the scan; otherwise the first reminder whose bare
identifier equals the requested one is returned. -/
def find_current : List Reminder → String → Except UpdateError (Option Reminder)
  | [], _ => Except.ok none
  | r :: rest, rid =>
    match extract_reminder_id (reminder_uid r) with
    | .error e => Except.error e
    | .ok rid2 => if rid2 == rid then Except.ok (some r) else find_current rest rid

/-- Embedding of `todo.py async_update_todo_item` as the trace of remote
calls it issues on the path where every issued call succeeds, paired with
the reconciliation error when one is raised (always before any call is
issued). The trailing `getReminders` call is the per-list refresh; its
snapshot effect is modelled separately by `async_refresh_list`. -/
def async_update_todo_item (st : CoordState) (list_id : String) (item : TodoItem) :
    List ApiCall × Option UpdateError :=
  match extract_reminder_id item.uid with
  | .error e => ([], some e)
  | .ok reminder_id =>
    let reminders := (st.lists_data list_id).getD []
    match find_current reminders reminder_id with
    | .error e => ([], some e)
    | .ok none => ([], some (.notFound item.uid (display_name st list_id)))
    | .ok (some current) =>
      let is_completed := is_completed_flag item
      let status_delta := completion_changed item current
      let tch := title_changed item current
      let nch := notes_changed item current
      let dch := due_changed item current
      let calls :=
        if status_delta && !(tch || nch || dch) then
          [if is_completed then ApiCall.completeReminder list_id reminder_id
           else ApiCall.uncompleteReminder list_id reminder_id]
        else
          (if status_delta then
            [if is_completed then ApiCall.completeReminder list_id reminder_id
             else ApiCall.uncompleteReminder list_id reminder_id]
           else [])
          ++ (if tch || nch || dch then
                [ApiCall.updateReminder list_id reminder_id
                  (if tch then item.summary else none)
                  (if nch then item.description else none)
                  (if dch then item.due else none)]
              else [])
      (calls ++ [ApiCall.getReminders list_id true], none)

/-- Outcome of a full poll: success, or the `UpdateFailed` signal raised
to the host coordinator framework. -/
inductive PollOutcome where
  | success
  | updateFailed
deriving DecidableEq, Repr

/-- Python `reminders or []` on a fetched (possibly null) result. -/
def or_empty : Option (List Reminder) → List Reminder
  | none => []
  | some l => l

/-- Embedding of the list-identifier derivation in `_async_update_data`:
`list_info.get("uuid") or list_info.get("id")`, with falsy results
skipped by the `if not list_id` guard. -/
def derive_list_id (info : ListInfo) : Option String :=
  match py_or_str info.uuid info.id with
  | some s => if s == "" then none else some s
  | none => none

/-- One iteration of the full-poll loop body: lists without a derivable
identifier are skipped; otherwise the metadata entry is recorded and the
reminder fetch result is recorded, degraded to the empty list when the
fetch fails. -/
def poll_step (fetchReminders : String → Except String (Option (List Reminder)))
    (acc : (String → Option ListInfo) × (String → Option (List Reminder)))
    (info : ListInfo) :
    (String → Option ListInfo) × (String → Option (List Reminder)) :=
  match derive_list_id info with
  | none => acc
  | some lid =>
    (fun k => if k = lid then some info else acc.1 k,
     fun k => if k = lid then
        some (match fetchReminders lid with
              | .ok rs => or_empty rs
              | .error _ => [])
      else acc.2 k)

/-- Embedding of the coordinator `_async_update_data` full poll: if the
list enumeration fails the poll raises `UpdateFailed` and the snapshot is
left untouched; otherwise fresh metadata and reminder maps are built from
scratch over the returned lists and assigned to the snapshot at the end. -/
def async_update_data (st : CoordState)
    (fetchLists : Except String (List ListInfo))
    (fetchReminders : String → Except String (Option (List Reminder))) :
    CoordState × PollOutcome :=
  match fetchLists with
  | .error _ => (st, .updateFailed)
  | .ok raw_lists =>
    let maps := raw_lists.foldl (poll_step fetchReminders) (fun _ => none, fun _ => none)
    ({ lists_meta := maps.1, lists_data := maps.2 }, .success)

/-- Embedding of the coordinator `async_refresh_list`: on a successful
fetch only that list's reminder sequence is reassigned and listeners are
notified (the boolean); on failure the error is logged and nothing
changes. -/
def async_refresh_list (st : CoordState) (list_id : String)
    (fetch : Except String (Option (List Reminder))) : CoordState × Bool :=
  match fetch with
  | .ok reminders =>
    ({ st with
        lists_data := fun k =>
          if k = list_id then some (or_empty reminders) else st.lists_data k },
      true)
  | .error _ => (st, false)

/-- The last list record in poll order whose derived identifier is `k`
(Python dict assignment in the loop makes the last one win). -/
def lastWithKey (infos : List ListInfo) (k : String) : Option ListInfo :=
  infos.reverse.find? (fun info => derive_list_id info == some k)

/-- Hexadecimal output alphabet of the percent encoder. -/
def HEX_UPPER : List Char :=
  ['0', '1', '2', '3', '4', '5', '6', '7', '8', '9',
   'A', 'B', 'C', 'D', 'E', 'F']

/-- Characters that can appear in percent-encoded output: always-safe
characters, the percent sign, and uppercase hexadecimal digits. -/
def pct_output_char (c : Char) : Bool :=
  ALWAYS_SAFE c || c = '%' || HEX_UPPER.contains c

/-- The string carried by a dynamic value when it is a string
(`isinstance(v, str)` projection). -/
def string_of_val : Option PyVal → Option String
  | some (.vStr s) => some s
  | _ => none

theorem replaceFuel_nil (pat rep : List Char) (f : Nat) :
    replaceFuel pat rep f [] = [] := by
  cases f <;> rfl

theorem replaceFuel_cons (pat rep : List Char) (f : Nat) (c : Char) (rest : List Char) :
    replaceFuel pat rep (f + 1) (c :: rest) =
      if pat.isPrefixOf (c :: rest) then
        rep ++ replaceFuel pat rep f ((c :: rest).drop pat.length)
      else
        c :: replaceFuel pat rep f rest := rfl

theorem isPrefixOf_self_append (l t : List Char) : l.isPrefixOf (l ++ t) = true := by
  induction l with
  | nil => simp
  | cons a as ih => simp [List.isPrefixOf_cons₂, ih]

theorem replaceFuel_fuel_eq (pat rep : List Char) (hpat : pat ≠ []) :
    ∀ (n : Nat) (s : List Char) (f1 f2 : Nat), s.length ≤ n → s.length ≤ f1 →
      s.length ≤ f2 → replaceFuel pat rep f1 s = replaceFuel pat rep f2 s := by
  intro n
  induction n with
  | zero =>
    intro s f1 f2 hn _ _
    have hs : s = [] := List.length_eq_zero.mp (Nat.le_zero.mp hn)
    subst hs
    rw [replaceFuel_nil, replaceFuel_nil]
  | succ n ih =>
    intro s f1 f2 hn h1 h2
    cases s with
    | nil => rw [replaceFuel_nil, replaceFuel_nil]
    | cons c rest =>
      have hplen : 1 ≤ pat.length := List.length_pos.mpr hpat
      simp only [List.length_cons] at hn h1 h2
      obtain ⟨g1, rfl⟩ : ∃ g, f1 = g + 1 := ⟨f1 - 1, by omega⟩
      obtain ⟨g2, rfl⟩ : ∃ g, f2 = g + 1 := ⟨f2 - 1, by omega⟩
      rw [replaceFuel_cons, replaceFuel_cons]
      by_cases hp : pat.isPrefixOf (c :: rest) = true
      · rw [if_pos hp, if_pos hp]
        have hlen : ((c :: rest).drop pat.length).length ≤ n := by
          simp [List.length_drop]
          omega
        rw [ih _ g1 g2 hlen (by simp [List.length_drop]; omega) (by simp [List.length_drop]; omega)]
      · rw [if_neg hp, if_neg hp, ih rest g1 g2 (by omega) (by omega) (by omega)]

theorem replaceFuel_no_occur (pat rep : List Char) :
    ∀ (s : List Char) (f : Nat), s.length ≤ f → occursIn pat s = false →
      replaceFuel pat rep f s = s := by
  intro s
  induction s with
  | nil => intro f _ _; rw [replaceFuel_nil]
  | cons c rest ih =>
    intro f hf hocc
    simp only [occursIn, Bool.or_eq_false_iff] at hocc
    obtain ⟨g, rfl⟩ : ∃ g, f = g + 1 := ⟨f - 1, by simp at hf; omega⟩
    rw [replaceFuel_cons, if_neg (by simp [hocc.1])]
    rw [ih g (by simp at hf; omega) hocc.2]

theorem pyReplaceL_no_occur (pat rep s : List Char) (h : occursIn pat s = false) :
    pyReplaceL pat rep s = s := by
  have hpat : pat ≠ [] := by
    cases s with
    | nil => simp [occursIn] at h; simpa [List.isEmpty_iff] using h
    | cons c rest =>
      intro he
      subst he
      simp [occursIn] at h
  rw [pyReplaceL, if_neg (by simpa [List.isEmpty_iff] using hpat)]
  exact replaceFuel_no_occur pat rep s s.length (Nat.le_refl _) h

theorem pyReplaceL_strip (pat rep rest : List Char) (hpat : pat ≠ []) :
    pyReplaceL pat rep (pat ++ rest) = rep ++ pyReplaceL pat rep rest := by
  rw [pyReplaceL, pyReplaceL, if_neg (by simpa [List.isEmpty_iff] using hpat),
    if_neg (by simpa [List.isEmpty_iff] using hpat)]
  cases pat with
  | nil => exact absurd rfl hpat
  | cons p ps =>
    have hcons : (p :: ps) ++ rest = p :: (ps ++ rest) := rfl
    rw [hcons]
    have hlen : (p :: (ps ++ rest)).length = (ps ++ rest).length + 1 := by simp
    rw [hlen, replaceFuel_cons,
      if_pos (by simpa [List.isPrefixOf_cons₂] using isPrefixOf_self_append ps rest)]
    have hdrop : (p :: (ps ++ rest)).drop (p :: ps).length = rest := by
      simp [List.length_cons, List.drop_left]
    rw [hdrop]
    congr 1
    exact replaceFuel_fuel_eq (p :: ps) rep hpat rest.length rest
      (ps ++ rest).length rest.length (Nat.le_refl _) (by simp) (Nat.le_refl _)

theorem pyReplaceL_single_append (z : Char) (rep d s : List Char)
    (hnd : ∀ c ∈ d, c ≠ z) :
    pyReplaceL [z] rep (d ++ s) = d ++ pyReplaceL [z] rep s := by
  induction d with
  | nil => simp
  | cons c rest ih =>
    have hc : c ≠ z := hnd c (by simp)
    have hrest : ∀ x ∈ rest, x ≠ z := fun x hx => hnd x (by simp [hx])
    rw [pyReplaceL, if_neg (by simp)]
    have hcons : (c :: rest) ++ s = c :: (rest ++ s) := rfl
    rw [hcons]
    have hlen : (c :: (rest ++ s)).length = (rest ++ s).length + 1 := by simp
    rw [hlen, replaceFuel_cons, if_neg (by simp [List.isPrefixOf_cons₂]; intro he; exact hc he.symm)]
    have htail : replaceFuel [z] rep (rest ++ s).length (rest ++ s) = pyReplaceL [z] rep (rest ++ s) := by
      rw [pyReplaceL, if_neg (by simp)]
    rw [htail, ih hrest]
    rfl

theorem string_mk_eq (l : List Char) (s : String) : String.mk l = s ↔ l = s.data := by
  cases s with
  | mk d => exact ⟨fun h => by injection h, fun h => by rw [h]⟩

/-- C5 counterexample: the falsy check in `_extract_reminder_id` runs
before the marker is stripped, so the bare scheme marker extracts to the
empty string successfully instead of failing with
`MissingIdentifierError`, refuting the claim that every identifier that
is empty after extraction fails. -/
theorem c5_bare_marker_counterexample :
    extract_reminder_id (some "x-apple-reminder://") = Except.ok "" := by
  decide

/-- C5 amended: an identifier that is empty or absent before extraction
fails with `MissingIdentifierError`; a non-empty identifier not starting
with the scheme marker is returned unchanged; an identifier starting with
the marker has every occurrence of the marker removed — which strips
exactly the prefix whenever the marker does not reoccur in the remainder —
and in particular the bare marker extracts to the empty string without
error. -/
theorem c5_extract_reminder_id_amended :
    extract_reminder_id none = Except.error UpdateError.missingIdentifier ∧
    extract_reminder_id (some "") = Except.error UpdateError.missingIdentifier ∧
    (∀ u : String, u ≠ "" → py_startswith u APPLE_MARKER = false →
      extract_reminder_id (some u) = Except.ok u) ∧
    (∀ rest : String, occurs_str APPLE_MARKER rest = false →
      extract_reminder_id (some (APPLE_MARKER ++ rest)) = Except.ok rest) ∧
    extract_reminder_id (some APPLE_MARKER) = Except.ok "" := by
  refine ⟨rfl, by decide, ?_, ?_, by decide⟩
  · intro u hu hpre
    have hbeq : (u == "") = false := by
      rw [beq_eq_false_iff_ne]
      exact hu
    simp [extract_reminder_id, hbeq, hpre]
  · intro rest hocc
    have hne : ((APPLE_MARKER ++ rest) == "") = false := by
      rw [beq_eq_false_iff_ne]
      intro h
      apply_fun String.data at h
      rw [String.data_append] at h
      rcases List.append_eq_nil.mp h with ⟨h1, _⟩
      exact absurd h1 (by decide)
    have hpre : py_startswith (APPLE_MARKER ++ rest) APPLE_MARKER = true := by
      rw [py_startswith, String.data_append]
      exact isPrefixOf_self_append _ _
    have hrep : pyReplace (APPLE_MARKER ++ rest) APPLE_MARKER "" = rest := by
      rw [pyReplace, string_mk_eq, String.data_append,
        pyReplaceL_strip _ _ _ (by decide)]
      have hocc2 : occursIn APPLE_MARKER.data rest.data = false := hocc
      rw [pyReplaceL_no_occur _ _ _ hocc2]
      rfl
    simp [extract_reminder_id, hne, hpre, hrep]

/-- C5 witness: the two concrete normalizations named by the claim. -/
theorem c5_extract_reminder_id_amended_witness :
    extract_reminder_id (some (APPLE_MARKER ++ "ABC-123")) = Except.ok "ABC-123" ∧
    extract_reminder_id (some "ABC-123") = Except.ok "ABC-123" :=
  ⟨c5_extract_reminder_id_amended.2.2.2.1 "ABC-123" (by decide),
   c5_extract_reminder_id_amended.2.2.1 "ABC-123" (by decide) (by decide)⟩

/-- C8: for a due-date body without the letter Z, parsing through the
normalize-and-reparse path of `_parse_due_date` yields the same result
whether the input carries the `Z` suffix or the explicit `+00:00` offset
suffix, since both normalize to the identical string before parsing. -/
theorem c8_z_suffix_equivalence (d : String) (hz : ¬ (('Z') ∈ d.data)) :
    parse_due_date (some (.vStr (d ++ "Z"))) =
      parse_due_date (some (.vStr (d ++ "+00:00"))) := by
  have hnd : ∀ c ∈ d.data, c ≠ ('Z') := fun c hc he => hz (he ▸ hc)
  have hne1 : ((d ++ "Z") == "") = false := by
    rw [beq_eq_false_iff_ne]
    intro h
    apply_fun String.data at h
    rw [String.data_append] at h
    rcases List.append_eq_nil.mp h with ⟨_, h2⟩
    exact absurd h2 (by decide)
  have hne2 : ((d ++ "+00:00") == "") = false := by
    rw [beq_eq_false_iff_ne]
    intro h
    apply_fun String.data at h
    rw [String.data_append] at h
    rcases List.append_eq_nil.mp h with ⟨_, h2⟩
    exact absurd h2 (by decide)
  have hdz : ("Z").data = [('Z')] := rfl
  have hr1 : pyReplace (d ++ "Z") "Z" "+00:00" = d ++ "+00:00" := by
    rw [pyReplace, string_mk_eq, String.data_append, String.data_append, hdz,
      pyReplaceL_single_append _ _ _ _ hnd]
    congr 1
  have hr2 : pyReplace (d ++ "+00:00") "Z" "+00:00" = d ++ "+00:00" := by
    rw [pyReplace, string_mk_eq, String.data_append, hdz,
      pyReplaceL_single_append _ _ _ _ hnd]
    congr 1
  simp only [parse_due_date, hne1, hne2, hr1, hr2]

/-- C8 witness: a concrete instant with and without the Z suffix. -/
theorem c8_z_suffix_equivalence_witness :
    parse_due_date (some (.vStr ("2024-01-15T10:30:00" ++ "Z"))) =
      parse_due_date (some (.vStr ("2024-01-15T10:30:00" ++ "+00:00"))) :=
  c8_z_suffix_equivalence "2024-01-15T10:30:00" (by decide)

theorem utf8Bytes_lt (c : Char) : ∀ b ∈ utf8Bytes c, b < 256 := by
  have hval : c.toNat = c.val.toNat := rfl
  have hc : c.toNat < 1114112 := by
    rcases c.valid with h1 | ⟨h1, h2⟩ <;> omega
  intro b hb
  simp only [utf8Bytes] at hb
  split_ifs at hb <;> simp at hb <;> rcases hb with rfl | rfl | rfl | rfl <;> omega

theorem hexDigitChar_mem (n : Nat) (h : n < 16) :
    HEX_UPPER.contains (hexDigitChar n) = true := by
  have hall : ∀ m, m < 16 → HEX_UPPER.contains (hexDigitChar m) = true := by decide
  exact hall n h

theorem pyQuote_chars (s : String) :
    ∀ c ∈ (pyQuote s).data, pct_output_char c = true := by
  intro c hc
  simp only [pyQuote, List.mem_flatMap] at hc
  obtain ⟨x, _, hcx⟩ := hc
  simp only [pctEncodeChar] at hcx
  split_ifs at hcx with hsafe
  · simp at hcx
    subst hcx
    simp [pct_output_char, hsafe]
  · simp only [List.mem_flatMap] at hcx
    obtain ⟨b, hb, hcb⟩ := hcx
    have hb256 : b < 256 := utf8Bytes_lt x b hb
    simp at hcb
    rcases hcb with rfl | rfl | rfl
    · decide
    · simp only [pct_output_char, Bool.or_eq_true]
      exact Or.inr (by simpa using hexDigitChar_mem (b / 16) (by omega))
    · simp only [pct_output_char, Bool.or_eq_true]
      exact Or.inr (by simpa using hexDigitChar_mem (b % 16) (by omega))

/-- C6 counterexample: in `update_reminder` the reminder identifier is
interpolated into the path without percent-encoding, so an identifier
containing a space appears verbatim rather than as the percent-encoded
form the claim requires. -/
theorem c6_reminder_id_not_encoded_counterexample :
    update_reminder_endpoint "L" "a b" = "/lists/L/reminders/a b" ∧
    update_reminder_endpoint "L" "a b" ≠
      "/lists/" ++ pyQuote "L" ++ "/reminders/" ++ pyQuote "a b" := by
  constructor <;> decide

/-- C6 amended: in every constructed path the list identifier is
percent-encoded (its encoded form consists only of always-safe characters,
percent signs, and uppercase hexadecimal digits), while the reminder
identifier is substituted verbatim, without percent-encoding, in the
update, delete, complete and uncomplete paths. -/
theorem c6_list_names_encoded_ids_verbatim (ln rid : String) :
    (∀ c ∈ (pyQuote ln).data, pct_output_char c = true) ∧
    get_reminders_endpoint ln true = "/lists/" ++ pyQuote ln ++ "?completed=true" ∧
    get_reminders_endpoint ln false = "/lists/" ++ pyQuote ln ∧
    create_reminder_endpoint ln = "/lists/" ++ pyQuote ln ++ "/reminders" ∧
    update_reminder_endpoint ln rid = "/lists/" ++ pyQuote ln ++ "/reminders/" ++ rid ∧
    delete_reminder_endpoint ln rid = "/lists/" ++ pyQuote ln ++ "/reminders/" ++ rid ∧
    complete_reminder_endpoint ln rid =
      "/lists/" ++ pyQuote ln ++ "/reminders/" ++ rid ++ "/complete" ∧
    uncomplete_reminder_endpoint ln rid =
      "/lists/" ++ pyQuote ln ++ "/reminders/" ++ rid ++ "/uncomplete" :=
  ⟨pyQuote_chars ln, rfl, rfl, rfl, rfl, rfl, rfl, rfl⟩

/-- C6 witness: a list name containing a space is percent-encoded in the
constructed reminder-listing path, every output character being legal
percent-encoding output. -/
theorem c6_list_names_encoded_ids_verbatim_witness :
    pct_output_char ('%') = true ∧
    get_reminders_endpoint "My List" false = "/lists/" ++ pyQuote "My List" :=
  ⟨(c6_list_names_encoded_ids_verbatim "My List" "R1").1 '%' (by decide),
   (c6_list_names_encoded_ids_verbatim "My List" "R1").2.2.1⟩

/-- C7: a per-list refresh that fetches successfully replaces only that
list's reminder sequence (other lists' sequences and the lists-metadata
map are untouched) and notifies listeners; a failed fetch leaves the
snapshot entirely unchanged and notifies nobody. -/
theorem c7_refresh_frame (st : CoordState) (list_id : String)
    (fetch : Except String (Option (List Reminder))) :
    (∀ rs, fetch = Except.ok rs →
      (async_refresh_list st list_id fetch).1.lists_data list_id = some (or_empty rs) ∧
      (∀ k, k ≠ list_id →
        (async_refresh_list st list_id fetch).1.lists_data k = st.lists_data k) ∧
      (async_refresh_list st list_id fetch).1.lists_meta = st.lists_meta ∧
      (async_refresh_list st list_id fetch).2 = true) ∧
    (∀ e, fetch = Except.error e → async_refresh_list st list_id fetch = (st, false)) := by
  constructor
  · intro rs h
    subst h
    refine ⟨by simp [async_refresh_list], ?_, rfl, rfl⟩
    intro k hk
    simp [async_refresh_list, hk]
  · intro e h
    subst h
    rfl

/-- C7 witness: a successful refresh records the fetched list, a failed
refresh returns the state unchanged. -/
theorem c7_refresh_frame_witness :
    (async_refresh_list CoordState.empty "L1" (Except.ok (some []))).1.lists_data "L1" =
      some [] ∧
    async_refresh_list CoordState.empty "L1" (Except.error "boom") =
      (CoordState.empty, false) :=
  ⟨((c7_refresh_frame CoordState.empty "L1" (Except.ok (some []))).1 (some []) rfl).1,
   (c7_refresh_frame CoordState.empty "L1" (Except.error "boom")).2 "boom" rfl⟩

/-- C3: when the list enumeration fetch fails, the full poll raises the
`UpdateFailed` outcome and the snapshot maps are exactly the ones from
before the poll. -/
theorem c3_enumeration_failure_atomic (st : CoordState)
    (fetchLists : Except String (List ListInfo))
    (fetchReminders : String → Except String (Option (List Reminder)))
    (e : String) (h : fetchLists = Except.error e) :
    async_update_data st fetchLists fetchReminders = (st, PollOutcome.updateFailed) := by
  subst h
  rfl

/-- C3 witness. -/
theorem c3_enumeration_failure_atomic_witness :
    async_update_data CoordState.empty (Except.error "down") (fun _ => Except.ok none) =
      (CoordState.empty, PollOutcome.updateFailed) :=
  c3_enumeration_failure_atomic CoordState.empty (Except.error "down")
    (fun _ => Except.ok none) "down" rfl

theorem lastWithKey_cons (i : ListInfo) (rest : List ListInfo) (k : String) :
    lastWithKey (i :: rest) k =
      match lastWithKey rest k with
      | some j => some j
      | none => if derive_list_id i = some k then some i else none := by
  simp only [lastWithKey, List.reverse_cons, List.find?_append]
  cases h : List.find? (fun info => derive_list_id info == some k) rest.reverse with
  | some j => rfl
  | none =>
    simp only [Option.none_orElse]
    by_cases hd : derive_list_id i = some k
    · simp [List.find?, hd]
    · have hbeq : (derive_list_id i == some k) = false := by simp [hd]
      simp [List.find?, hbeq, hd]

theorem poll_fold_meta (fR : String → Except String (Option (List Reminder)))
    (infos : List ListInfo)
    (acc : (String → Option ListInfo) × (String → Option (List Reminder))) (k : String) :
    (infos.foldl (poll_step fR) acc).1 k =
      match lastWithKey infos k with
      | some info => some info
      | none => acc.1 k := by
  induction infos generalizing acc with
  | nil => rfl
  | cons i rest ih =>
    rw [List.foldl_cons, ih, lastWithKey_cons]
    cases hrest : lastWithKey rest k with
    | some j => rfl
    | none =>
      simp only []
      by_cases hd : derive_list_id i = some k
      · simp only [hd, if_pos rfl]
        simp [poll_step, hd]
      · cases hdi : derive_list_id i with
        | none => simp [poll_step, hdi, hd]
        | some lid =>
          have hne : k ≠ lid := by
            intro hk
            subst hk
            exact hd hdi
          have hne2 : lid ≠ k := fun hk => hne hk.symm
          simp [poll_step, hdi, hd, hne, hne2]

theorem poll_fold_data (fR : String → Except String (Option (List Reminder)))
    (infos : List ListInfo)
    (acc : (String → Option ListInfo) × (String → Option (List Reminder))) (k : String) :
    (infos.foldl (poll_step fR) acc).2 k =
      match lastWithKey infos k with
      | some _ => some (match fR k with | .ok rs => or_empty rs | .error _ => [])
      | none => acc.2 k := by
  induction infos generalizing acc with
  | nil => rfl
  | cons i rest ih =>
    rw [List.foldl_cons, ih, lastWithKey_cons]
    cases hrest : lastWithKey rest k with
    | some j => rfl
    | none =>
      simp only []
      by_cases hd : derive_list_id i = some k
      · simp only [hd, if_pos rfl]
        have hkk : k = k := rfl
        simp [poll_step, hd]
      · cases hdi : derive_list_id i with
        | none => simp [poll_step, hdi, hd]
        | some lid =>
          have hne : k ≠ lid := by
            intro hk
            subst hk
            exact hd hdi
          have hne2 : lid ≠ k := fun hk => hne hk.symm
          simp [poll_step, hdi, hd, hne, hne2]

theorem find_unique_mem {α : Type} (p : α → Bool) (B : α) :
    ∀ (l : List α), B ∈ l → p B = true → (∀ x ∈ l, p x = true → x = B) →
      l.find? p = some B := by
  intro l
  induction l with
  | nil => intro h; cases h
  | cons a rest ih =>
    intro hmem hpB huniq
    by_cases hpa : p a = true
    · have : a = B := huniq a (by simp) hpa
      subst this
      simp [List.find?, hpa]
    · have hmem2 : B ∈ rest := by
        rcases List.mem_cons.mp hmem with rfl | h
        · exact absurd hpB hpa
        · exact h
      rw [List.find?_cons_of_neg _ (by simpa using hpa)]
      exact ih hmem2 hpB (fun x hx => huniq x (by simp [hx]))

theorem lastWithKey_of_unique (infos : List ListInfo) (B : ListInfo) (kB : String)
    (hmem : B ∈ infos) (hkey : derive_list_id B = some kB)
    (huniq : ∀ info ∈ infos, derive_list_id info = some kB → info = B) :
    lastWithKey infos kB = some B := by
  apply find_unique_mem
  · simpa using hmem
  · simp [hkey]
  · intro x hx hpx
    exact huniq x (by simpa using hx) (by simpa using hpx)

/-- C2: when list enumeration succeeds but the reminder fetch for list B
fails, the full poll still succeeds; B's reminder sequence is recorded as
the empty list (present, not stale), B's metadata entry is preserved, and
every list whose fetch succeeded has its fetched reminders recorded. -/
theorem c2_partial_failure_degrades_to_empty (st : CoordState)
    (fetchLists : Except String (List ListInfo))
    (fR : String → Except String (Option (List Reminder)))
    (infos : List ListInfo) (B : ListInfo) (kB : String) (e : String)
    (hok : fetchLists = Except.ok infos)
    (hmem : B ∈ infos) (hkey : derive_list_id B = some kB)
    (huniq : ∀ info ∈ infos, derive_list_id info = some kB → info = B)
    (herr : fR kB = Except.error e) :
    (async_update_data st fetchLists fR).2 = PollOutcome.success ∧
    (async_update_data st fetchLists fR).1.lists_data kB = some [] ∧
    (async_update_data st fetchLists fR).1.lists_meta kB = some B ∧
    (∀ k rs, lastWithKey infos k ≠ none → fR k = Except.ok rs →
      (async_update_data st fetchLists fR).1.lists_data k = some (or_empty rs)) := by
  subst hok
  have hlast := lastWithKey_of_unique infos B kB hmem hkey huniq
  have hdata : (async_update_data st (Except.ok infos) fR).1.lists_data =
      (infos.foldl (poll_step fR) (fun _ => none, fun _ => none)).2 := rfl
  have hmeta : (async_update_data st (Except.ok infos) fR).1.lists_meta =
      (infos.foldl (poll_step fR) (fun _ => none, fun _ => none)).1 := rfl
  refine ⟨rfl, ?_, ?_, ?_⟩
  · rw [hdata, poll_fold_data, hlast, herr]
  · rw [hmeta, poll_fold_meta, hlast]
  · intro k rs hk hok2
    rw [hdata, poll_fold_data]
    cases hl : lastWithKey infos k with
    | none => exact absurd hl hk
    | some j => rw [hok2]

/-- C2 witness: two lists, the second list's fetch fails; the first list
keeps its fetched reminders, the second degrades to empty with metadata
preserved. -/
theorem c2_partial_failure_degrades_to_empty_witness :
    (async_update_data CoordState.empty
        (Except.ok [{ uuid := some "LA" }, { uuid := some "LB" }])
        (fun k => if k = "LB" then Except.error "boom"
                  else Except.ok (some [{ title := some (.vStr "Milk") }]))).1.lists_data "LB"
      = some [] ∧
    (async_update_data CoordState.empty
        (Except.ok [{ uuid := some "LA" }, { uuid := some "LB" }])
        (fun k => if k = "LB" then Except.error "boom"
                  else Except.ok (some [{ title := some (.vStr "Milk") }]))).1.lists_meta "LB"
      = some { uuid := some "LB" } ∧
    (async_update_data CoordState.empty
        (Except.ok [{ uuid := some "LA" }, { uuid := some "LB" }])
        (fun k => if k = "LB" then Except.error "boom"
                  else Except.ok (some [{ title := some (.vStr "Milk") }]))).1.lists_data "LA"
      = some [{ title := some (.vStr "Milk") }] := by
  have h := c2_partial_failure_degrades_to_empty CoordState.empty
    (Except.ok [{ uuid := some "LA" }, { uuid := some "LB" }])
    (fun k => if k = "LB" then Except.error "boom"
              else Except.ok (some [{ title := some (.vStr "Milk") }]))
    [{ uuid := some "LA" }, { uuid := some "LB" }]
    { uuid := some "LB" } "LB" "boom" rfl (by decide) (by decide) (by decide) (by decide)
  exact ⟨h.2.1, h.2.2.1,
    h.2.2.2 "LA" (some [{ title := some (.vStr "Milk") }]) (by decide) (by decide)⟩

theorem filterMap_length_countP {α β : Type} (f : α → Option β) (l : List α) :
    (l.filterMap f).length = l.countP (fun a => (f a).isSome) := by
  induction l with
  | nil => rfl
  | cons a rest ih =>
    rw [List.filterMap_cons, List.countP_cons]
    cases hf : f a with
    | none => simp [hf, ih]
    | some b => simp [hf, ih]

/-- C9 counterexample: a reminder whose `externalId` holds a truthy
non-string (an integer) while `uuid` holds a string. Under the claimed
first-string-valued precedence its identifier would be the uuid string;
the code's truthiness chain selects the integer, the `isinstance` check
fails, and the reminder is silently excluded from the rendered items. -/
theorem c9_truthiness_beats_string_counterexample :
    first_string_field { externalId := some (.vInt 7), uuid := some (.vStr "UU") } =
      some "UU" ∧
    reminder_uid { externalId := some (.vInt 7), uuid := some (.vStr "UU") } = none ∧
    todo_items
      { lists_meta := fun _ => none,
        lists_data := fun k =>
          if k = "L1" then
            some [{ externalId := some (.vInt 7), uuid := some (.vStr "UU") }]
          else none }
      "L1" = [] := by
  refine ⟨rfl, rfl, ?_⟩
  decide

/-- C9 amended: the exposed identifier is chosen by Python truthiness
precedence — `externalId` if truthy, else `uuid` if truthy, else the `id`
field — and yields an identifier only when the selected value is a
string; a reminder whose selected value is not a string, or whose
identifier is empty or absent, is silently excluded from the rendered
item sequence, and every rendered item's uid is the non-empty identifier
of some stored reminder. -/
theorem c9_uid_precedence_amended (r : Reminder) (st : CoordState) (lid : String) :
    (val_truthy r.externalId = true → reminder_uid r = string_of_val r.externalId) ∧
    (val_truthy r.externalId = false → val_truthy r.uuid = true →
      reminder_uid r = string_of_val r.uuid) ∧
    (val_truthy r.externalId = false → val_truthy r.uuid = false →
      reminder_uid r = string_of_val r.id) ∧
    ((todo_items st lid).length =
      ((st.lists_data lid).getD []).countP
        (fun rr => match reminder_uid rr with
          | some u => !(u == "")
          | none => false)) ∧
    (∀ item ∈ todo_items st lid, ∃ rr ∈ (st.lists_data lid).getD [], ∃ s,
      reminder_uid rr = some s ∧ s ≠ "" ∧ item.uid = some s) := by
  refine ⟨?_, ?_, ?_, ?_, ?_⟩
  · intro h1
    have h2 : val_truthy (py_or r.externalId r.uuid) = true := by
      rw [py_or, if_pos h1]
      exact h1
    rw [reminder_uid, py_or, if_pos h2, py_or, if_pos h1]
    cases hv : r.externalId with
    | none => rw [hv] at h1; cases h1
    | some v => cases v <;> rfl
  · intro h1 h2
    have h3 : py_or r.externalId r.uuid = r.uuid := by rw [py_or, if_neg (by simp [h1])]
    have h4 : val_truthy (py_or r.externalId r.uuid) = true := by rw [h3]; exact h2
    rw [reminder_uid, py_or, if_pos h4, h3]
    cases hv : r.uuid with
    | none => rw [hv] at h2; cases h2
    | some v => cases v <;> rfl
  · intro h1 h2
    have h3 : py_or r.externalId r.uuid = r.uuid := by rw [py_or, if_neg (by simp [h1])]
    have h4 : val_truthy (py_or (py_or r.externalId r.uuid) r.id) =
        val_truthy r.id ∨ py_or (py_or r.externalId r.uuid) r.id = r.id := by
      right
      rw [py_or, h3, if_neg (by simp [h2])]
    rw [reminder_uid, py_or, h3, if_neg (by simp [h2])]
    cases hv : r.id with
    | none => rfl
    | some v => cases v <;> rfl
  · rw [todo_items, filterMap_length_countP]
    apply List.countP_congr
    intro rr _
    cases hu : reminder_uid rr with
    | none => simp [hu]
    | some u =>
      by_cases he : u == ""
      · simp [hu, he]
      · simp [hu, he]
  · intro item hitem
    rw [todo_items] at hitem
    rcases List.mem_filterMap.mp hitem with ⟨rr, hrr, hf⟩
    refine ⟨rr, hrr, ?_⟩
    split at hf
    · rename_i uid huid
      split at hf
      · cases hf
      · rename_i hempty
        injection hf with hf2
        exact ⟨uid, huid, by simpa using hempty, by rw [← hf2]⟩
    · cases hf

/-- C9 witness: with a falsy `externalId` the uuid string is selected. -/
theorem c9_uid_precedence_amended_witness :
    reminder_uid { uuid := some (.vStr "U") } = string_of_val (some (.vStr "U")) :=
  (c9_uid_precedence_amended { uuid := some (.vStr "U") } CoordState.empty "L").2.1
    rfl (by decide)

theorem update_trace (st : CoordState) (lid : String) (item : TodoItem)
    (rid : String) (r : Reminder)
    (hrid : extract_reminder_id item.uid = Except.ok rid)
    (hfind : find_current ((st.lists_data lid).getD []) rid = Except.ok (some r)) :
    async_update_todo_item st lid item =
      ((if completion_changed item r then
          [if is_completed_flag item then ApiCall.completeReminder lid rid
           else ApiCall.uncompleteReminder lid rid]
        else [])
        ++ (if title_changed item r || notes_changed item r || due_changed item r then
              [ApiCall.updateReminder lid rid
                (if title_changed item r then item.summary else none)
                (if notes_changed item r then item.description else none)
                (if due_changed item r then item.due else none)]
            else [])
        ++ [ApiCall.getReminders lid true], none) := by
  simp only [async_update_todo_item, hrid, hfind]
  cases hs : completion_changed item r <;>
    cases ht : title_changed item r <;>
      cases hn : notes_changed item r <;>
        cases hd : due_changed item r <;>
          simp [hs, ht, hn, hd]

/-- C1: when the target reminder is found, the reconciliation issues a
dedicated complete or uncomplete call (chosen by the new flag) exactly
when the completion flag changed, issues an updateReminder call exactly
when at least one of title, notes or due changed, orders the completion
call before the update call when both occur, and passes unchanged fields
of the update call as no value. -/
theorem c1_reconciliation_calls (st : CoordState) (lid : String) (item : TodoItem)
    (rid : String) (r : Reminder)
    (hrid : extract_reminder_id item.uid = Except.ok rid)
    (hfind : find_current ((st.lists_data lid).getD []) rid = Except.ok (some r)) :
    (async_update_todo_item st lid item).2 = none ∧
    ((async_update_todo_item st lid item).1.countP is_completion_call =
      if completion_changed item r then 1 else 0) ∧
    ((async_update_todo_item st lid item).1.countP is_update_call =
      if title_changed item r || notes_changed item r || due_changed item r then 1 else 0) ∧
    (completion_changed item r = true →
      (async_update_todo_item st lid item).1.head? =
        some (if is_completed_flag item then ApiCall.completeReminder lid rid
              else ApiCall.uncompleteReminder lid rid)) ∧
    ((title_changed item r || notes_changed item r || due_changed item r) = true →
      (async_update_todo_item st lid item).1.filter is_update_call =
        [ApiCall.updateReminder lid rid
          (if title_changed item r then item.summary else none)
          (if notes_changed item r then item.description else none)
          (if due_changed item r then item.due else none)]) ∧
    (completion_changed item r = true →
      (title_changed item r || notes_changed item r || due_changed item r) = true →
      (async_update_todo_item st lid item).1 =
        [if is_completed_flag item then ApiCall.completeReminder lid rid
         else ApiCall.uncompleteReminder lid rid,
         ApiCall.updateReminder lid rid
          (if title_changed item r then item.summary else none)
          (if notes_changed item r then item.description else none)
          (if due_changed item r then item.due else none),
         ApiCall.getReminders lid true]) := by
  rw [update_trace st lid item rid r hrid hfind]
  cases hs : completion_changed item r <;>
    cases hfields : title_changed item r || notes_changed item r || due_changed item r <;>
      cases hic : is_completed_flag item <;>
        simp [hs, hfields, is_completion_call, is_update_call]

/-- C1 witness: the specification scenario — only the completion flag
changes, so exactly one complete call and no update call is issued. -/
theorem c1_reconciliation_calls_witness :
    ((async_update_todo_item
        { lists_meta := fun _ => none,
          lists_data := fun k =>
            if k = "L1" then
              some [{ externalId := some (.vStr "R1"), title := some (.vStr "Milk") }]
            else none }
        "L1"
        { uid := some "R1", summary := some (.vStr "Milk"),
          status := some TodoItemStatus.completed }).1.countP is_completion_call = 1) ∧
    ((async_update_todo_item
        { lists_meta := fun _ => none,
          lists_data := fun k =>
            if k = "L1" then
              some [{ externalId := some (.vStr "R1"), title := some (.vStr "Milk") }]
            else none }
        "L1"
        { uid := some "R1", summary := some (.vStr "Milk"),
          status := some TodoItemStatus.completed }).1.countP is_update_call = 0) := by
  have h := c1_reconciliation_calls
    { lists_meta := fun _ => none,
      lists_data := fun k =>
        if k = "L1" then
          some [{ externalId := some (.vStr "R1"), title := some (.vStr "Milk") }]
        else none }
    "L1"
    { uid := some "R1", summary := some (.vStr "Milk"),
      status := some TodoItemStatus.completed }
    "R1"
    { externalId := some (.vStr "R1"), title := some (.vStr "Milk") }
    (by decide) (by decide)
  exact ⟨h.2.1.trans (by decide), h.2.2.1.trans (by decide)⟩

theorem extract_error_shape (u : Option String) (e : UpdateError)
    (h : extract_reminder_id u = Except.error e) : e = UpdateError.missingIdentifier := by
  cases u with
  | none =>
    rw [extract_reminder_id] at h
    injection h with h2
    exact h2.symm
  | some s =>
    rw [extract_reminder_id] at h
    split_ifs at h
    all_goals first
      | (injection h with h2; exact h2.symm)
      | cases h

theorem find_current_no_match (l : List Reminder) (rid : String)
    (h : ∀ r ∈ l, extract_reminder_id (reminder_uid r) ≠ Except.ok rid) :
    find_current l rid = Except.ok none ∨
      find_current l rid = Except.error UpdateError.missingIdentifier := by
  induction l with
  | nil => left; rfl
  | cons r rest ih =>
    cases hx : extract_reminder_id (reminder_uid r) with
    | error e =>
      have he := extract_error_shape _ _ hx
      subst he
      right
      simp [find_current, hx]
    | ok rid2 =>
      have hne : rid2 ≠ rid := by
        intro heq
        subst heq
        exact h r (by simp) hx
      have hbeq : (rid2 == rid) = false := by simp [hne]
      have hstep : find_current (r :: rest) rid = find_current rest rid := by
        simp [find_current, hx, hbeq]
      rw [hstep]
      exact ih (fun x hx2 => h x (by simp [hx2]))

theorem find_current_all_ok (l : List Reminder) (rid : String)
    (hok : ∀ r ∈ l, ∃ u, extract_reminder_id (reminder_uid r) = Except.ok u)
    (h : ∀ r ∈ l, extract_reminder_id (reminder_uid r) ≠ Except.ok rid) :
    find_current l rid = Except.ok none := by
  induction l with
  | nil => rfl
  | cons r rest ih =>
    obtain ⟨u, hu⟩ := hok r (by simp)
    have hne : u ≠ rid := by
      intro heq
      subst heq
      exact h r (by simp) hu
    have hbeq : (u == rid) = false := by simp [hne]
    have hstep : find_current (r :: rest) rid = find_current rest rid := by
      simp [find_current, hu, hbeq]
    rw [hstep]
    exact ih (fun x hx2 => hok x (by simp [hx2])) (fun x hx2 => h x (by simp [hx2]))

/-- C4 counterexample: the target identifier matches no stored reminder,
but because a stored reminder has no usable identifier at all, the scan
raises `MissingIdentifierError` instead of the claimed `NotFoundError`
(zero remote calls are still issued). -/
theorem c4_missing_uid_scan_counterexample :
    async_update_todo_item
      { lists_meta := fun _ => none,
        lists_data := fun k => if k = "L1" then some [{}] else none }
      "L1" { uid := some "X" } = ([], some UpdateError.missingIdentifier) ∧
    (∀ u l, UpdateError.missingIdentifier ≠ UpdateError.notFound u l) := by
  constructor
  · decide
  · intro u l h
    cases h

/-- C4 amended: when the requested identifier matches no stored reminder
of the list, the reconciliation issues zero remote calls and fails —
with `NotFoundError` naming the item and the list display name whenever
every stored reminder has a usable identifier, and otherwise with the
`MissingIdentifierError` raised while scanning a reminder that has none. -/
theorem c4_unknown_identifier_fails_closed (st : CoordState) (lid : String)
    (item : TodoItem) (rid : String)
    (hrid : extract_reminder_id item.uid = Except.ok rid)
    (hnomatch : ∀ r ∈ (st.lists_data lid).getD [],
      extract_reminder_id (reminder_uid r) ≠ Except.ok rid) :
    (async_update_todo_item st lid item).1 = [] ∧
    ((async_update_todo_item st lid item).2 =
        some (UpdateError.notFound item.uid (display_name st lid)) ∨
      (async_update_todo_item st lid item).2 = some UpdateError.missingIdentifier) ∧
    ((∀ r ∈ (st.lists_data lid).getD [], ∃ u,
        extract_reminder_id (reminder_uid r) = Except.ok u) →
      (async_update_todo_item st lid item).2 =
        some (UpdateError.notFound item.uid (display_name st lid))) := by
  rcases find_current_no_match _ rid hnomatch with hf | hf
  · exact ⟨by simp [async_update_todo_item, hrid, hf],
      Or.inl (by simp [async_update_todo_item, hrid, hf]),
      fun _ => by simp [async_update_todo_item, hrid, hf]⟩
  · refine ⟨by simp [async_update_todo_item, hrid, hf],
      Or.inr (by simp [async_update_todo_item, hrid, hf]), ?_⟩
    intro hok
    have hok2 := find_current_all_ok _ rid hok hnomatch
    rw [hok2] at hf
    cases hf

/-- C4 witness: an unknown identifier against an empty list yields the
`NotFoundError` naming the item and the list, with zero calls. -/
theorem c4_unknown_identifier_fails_closed_witness :
    (async_update_todo_item CoordState.empty "L1" { uid := some "X" }).1 = [] ∧
    (async_update_todo_item CoordState.empty "L1" { uid := some "X" }).2 =
      some (UpdateError.notFound (some "X") "L1") := by
  have h := c4_unknown_identifier_fails_closed CoordState.empty "L1"
    { uid := some "X" } "X" (by decide)
    (by intro r hr; simp [CoordState.empty] at hr)
  exact ⟨h.1, (h.2.2 (by intro r hr; simp [CoordState.empty] at hr)).trans (by decide)⟩

/-- C10: clearing a stored notes or due value (stored present, desired
absent) is detected as a change, so an updateReminder call is issued, but
the request body omits the cleared field entirely, since absence encodes
both unchanged and cleared; the clearing is never transmitted. -/
theorem c10_clearing_never_transmitted (st : CoordState) (lid : String)
    (item : TodoItem) (rid : String) (r : Reminder)
    (hrid : extract_reminder_id item.uid = Except.ok rid)
    (hfind : find_current ((st.lists_data lid).getD []) rid = Except.ok (some r))
    (hstored : r.notes ≠ none)
    (hclear : item.description = none) :
    notes_changed item r = true ∧
    (async_update_todo_item st lid item).1.filter is_update_call =
      [ApiCall.updateReminder lid rid
        (if title_changed item r then item.summary else none) none
        (if due_changed item r then item.due else none)] ∧
    (∀ t dd p, ¬ (("notes") ∈ (update_reminder_body t none dd p).map Prod.fst)) ∧
    (item.due = none → parse_due_date r.dueDate ≠ none →
      due_changed item r = true ∧
      (∀ t p, ¬ (("dueDate") ∈ (update_reminder_body t none none p).map Prod.fst))) := by
  have hnch : notes_changed item r = true := by
    rw [notes_changed, hclear]
    cases hn : r.notes with
    | none => exact absurd hn hstored
    | some v => simp [pyEqOV]
  have htrace := update_trace st lid item rid r hrid hfind
  have hfields : (title_changed item r || notes_changed item r || due_changed item r)
      = true := by simp [hnch]
  refine ⟨hnch, ?_, ?_, ?_⟩
  · rw [htrace]
    cases hs : completion_changed item r <;> cases hic : is_completed_flag item <;>
      simp [hs, hic, hfields, hnch, hclear, is_update_call]
  · intro t dd p
    cases t <;> cases dd <;> cases p <;> simp [update_reminder_body]
  · intro hdue hparse
    have hdch : due_changed item r = true := by
      rw [due_changed, hdue]
      cases hp : parse_due_date r.dueDate with
      | none => exact absurd hp hparse
      | some d2 => simp [pyDtOptEq]
    refine ⟨hdch, ?_⟩
    intro t p
    cases t <;> cases p <;> simp [update_reminder_body]

/-- C10 witness: clearing the stored note of a reminder whose other
fields are unchanged issues one update call whose body is empty. -/
theorem c10_clearing_never_transmitted_witness :
    notes_changed { uid := some "R1", summary := some (.vStr "T") }
      { externalId := some (.vStr "R1"), title := some (.vStr "T"),
        notes := some (.vStr "old note") } = true ∧
    (async_update_todo_item
        { lists_meta := fun _ => none,
          lists_data := fun k =>
            if k = "L1" then
              some [{ externalId := some (.vStr "R1"), title := some (.vStr "T"),
                      notes := some (.vStr "old note") }]
            else none }
        "L1" { uid := some "R1", summary := some (.vStr "T") }).1.filter is_update_call =
      [ApiCall.updateReminder "L1" "R1" none none none] ∧
    update_reminder_body none none none none = [] := by
  have h := c10_clearing_never_transmitted
    { lists_meta := fun _ => none,
      lists_data := fun k =>
        if k = "L1" then
          some [{ externalId := some (.vStr "R1"), title := some (.vStr "T"),
                  notes := some (.vStr "old note") }]
        else none }
    "L1" { uid := some "R1", summary := some (.vStr "T") } "R1"
    { externalId := some (.vStr "R1"), title := some (.vStr "T"),
      notes := some (.vStr "old note") }
    (by decide) (by decide) (by decide) rfl
  exact ⟨h.1, h.2.1.trans (by decide), rfl⟩
